import Mathlib

/-!
Verification of the ragged-array time-series engine of the ascat repository
(src/ascat/read_native/ragged_array_ts.py) against its natural-language
specification.

The shallow embedding models:
  - the ragged-array codec (contiguous_to_indexed / indexed_to_contiguous),
  - the CellFileCollectionStack read pipeline (sort by (sat_id, locationIndex,
    time) followed by the adjacent-pair deduplication mask),
  - the merge_and_write cell-size guard,
  - the CellFileCollection shard-open error handling,
  - the SwathFileCollection.stack buffered-flush loop and per-cell partition,
  - the dupe-window defaulting.

Machine integers (numpy int64) are modelled as Int, counts as Nat.  Times are
modelled as Int (the unit is minutes; numpy timedelta64 comparisons are
unit-converting, so only the ordered additive structure matters).  Float
coordinates are modelled as Int grid coordinates, which preserves all the
comparison logic the claims are about.  xarray datasets are modelled as
records whose optional fields stand for the presence or absence of the
corresponding variable.
-/

/-- One per-observation record of a ragged-array dataset: its time stamp and a
stand-in for all remaining observation-dimensional payload variables (which
xarray sorts and selects together with time). -/
structure Obs where
  time : Int
  payload : Int
deriving DecidableEq

/-- A ragged-array dataset.  The fields row_size and locationIndex are
optional, modelling presence of the corresponding variable in the xarray
dataset; location_id is the per-location id vector and obs the
observation-dimensional data.  In indexed form, locationIndex is a vector
parallel to obs. -/
structure Dataset where
  row_size : Option (List Int)
  locationIndex : Option (List Int)
  location_id : List Int
  obs : List Obs
deriving DecidableEq

/-- Errors raised by the engine.  The source raises python ValueError with a
message; the specification groups them as SchemaError / RangeError /
ConfigurationError.  schemaError covers the missing row_size / locationIndex
variables, indexError the numpy fancy-indexing failure, rangeError the
cell-outside-grid check, valueError the remaining configuration checks, and
notImplemented the python NotImplementedError. -/
inductive RAError where
  | schemaError (msg : String)
  | indexError
  | rangeError (cell : Nat)
  | valueError (msg : String)
  | notImplemented
deriving DecidableEq

/-- Model of numpy repeat(arange(n) + start, clip(row_size, 0)): each list
entry c at position i contributes c.toNat copies of the index start + i.
Int.toNat clamps negative counts to zero exactly as
np.where(row_size > 0, row_size, 0) does in contiguous_to_indexed. -/
def repeatArange (start : Int) : List Int → List Int
  | [] => []
  | c :: rest => List.replicate c.toNat start ++ repeatArange (start + 1) rest

/-- Insertion step of a stable sort: the new element is placed after every
already-placed element that compares less-or-equal to it. -/
def insertOrd (le : α → α → Bool) (a : α) : List α → List α
  | [] => [a]
  | b :: l => if le b a then b :: insertOrd le a l else a :: b :: l

/-- Stable sort by a total boolean comparison.  numpy lexsort (used by
xarray sortby) is a stable sort by the lexicographic key; a stable sort is
extensionally unique for a total preorder, so this left-fold insertion sort
has the same value on every input. -/
def stableSort (le : α → α → Bool) (l : List α) : List α :=
  l.foldl (fun acc x => insertOrd le x acc) []

/-- Lexicographic key comparison used by indexed_to_contiguous:
dataset.sortby(["locationIndex", "time"]), primary key locationIndex,
secondary key time. -/
def pairLex (p q : Int × Obs) : Bool :=
  decide (p.1 < q.1) || (decide (p.1 = q.1) && decide (p.2.time ≤ q.2.time))

/-- Normalisation of a numpy fancy index against an axis of length n:
negative indices address from the end. -/
def normIdx (n : Nat) (v : Int) : Int :=
  if v < 0 then v + n else v

/-- Model of contiguous_to_indexed (ragged_array_ts.py lines 1905-1937):
requires the row_size variable (ValueError otherwise, the specification's
SchemaError), expands row_size into locationIndex via
np.repeat(np.arange(row_size.size), np.where(row_size > 0, row_size, 0)) and
drops row_size. -/
def contiguous_to_indexed (ds : Dataset) : Except RAError Dataset :=
  match ds.row_size with
  | none => .error (.schemaError "dataset must have a row_size variable")
  | some rs =>
    .ok { ds with locationIndex := some (repeatArange 0 rs), row_size := none }

/-- Model of indexed_to_contiguous (ragged_array_ts.py lines 1864-1902):
requires the locationIndex variable (ValueError otherwise, the
specification's SchemaError), sorts the observation-dimensional data by
(locationIndex, time), computes row_size by scattering the per-value counts
of locationIndex into a zero vector of the same length as location_id
(numpy raises IndexError when a value falls outside the axis; negative
values address from the end), and drops locationIndex. -/
def indexed_to_contiguous (ds : Dataset) : Except RAError Dataset :=
  match ds.locationIndex with
  | none => .error (.schemaError "dataset must have a locationIndex variable")
  | some li =>
    let pairs := stableSort pairLex (li.zip ds.obs)
    let n := ds.location_id.length
    if li.all (fun v => decide (-(n : Int) ≤ v) && decide (v < (n : Int))) then
      .ok { row_size :=
              some ((List.range n).map
                (fun (i : Nat) => ((pairs.countP (fun p => decide (normIdx n p.1 = (i : Int)))) : Int))),
            locationIndex := none,
            location_id := ds.location_id,
            obs := pairs.map Prod.snd }
    else
      .error .indexError

/-- One observation record flowing through the CellFileCollectionStack.read
merge: its satellite id, remapped locationIndex, time and a stand-in payload
identifying the record. -/
structure SortedRec where
  sat_id : Int
  locationIndex : Int
  time : Int
  payload : Int
deriving DecidableEq

/-- Lexicographic comparison for data.sortby(["sat_id", "locationIndex",
"time"]) in CellFileCollectionStack.read (line 205). -/
def lexTripleLe (a b : SortedRec) : Bool :=
  decide (a.sat_id < b.sat_id) ||
    (decide (a.sat_id = b.sat_id) &&
      (decide (a.locationIndex < b.locationIndex) ||
        (decide (a.locationIndex = b.locationIndex) && decide (a.time ≤ b.time))))

/-- Model of the duplicate mask (lines 208-213 and 1050-1055):
np.insert(abs(time[1:] - time[:-1]) < dupe_window, 0, False).  Entry i is
true iff i > 0 and the absolute adjacent time difference to the original
predecessor is below the window. -/
def dupeMask (w : Int) (times : List Int) : List Bool :=
  match times with
  | [] => []
  | _ :: rest => false :: (times.zip rest).map (fun q => decide (|q.2 - q.1| < w))

/-- Model of data.sel(obs=~dupl): keep exactly the records whose dupeMask
entry is false. -/
def dedupe (w : Int) (l : List SortedRec) : List SortedRec :=
  ((l.zip (dupeMask w (l.map SortedRec.time))).filter (fun q => !q.2)).map Prod.fst

/-- Recursive restatement of the mask filter used in proofs: prev is the time
of the previous record of the original (unfiltered) list. -/
def dedupGo (w : Int) (prev : Int) : List SortedRec → List SortedRec
  | [] => []
  | r :: rs => if |r.time - prev| < w then dedupGo w r.time rs else r :: dedupGo w r.time rs

/-- Recursive form of dedupe: the first record is always kept and the rest is
filtered against original predecessors. -/
def dedupAdjRec (w : Int) : List SortedRec → List SortedRec
  | [] => []
  | a :: rest => a :: dedupGo w a.time rest

/-- Final processing of CellFileCollectionStack.read (lines 205-216): sort by
(sat_id, locationIndex, time), then drop the masked duplicates. -/
def stack_process (w : Int) (l : List SortedRec) : List SortedRec :=
  dedupe w (stableSort lexTripleLe l)

/-- A bounding box (lonmin, latmin, lonmax, latmax); grid coordinates are
modelled as Int. -/
structure BBox where
  lonmin : Int
  latmin : Int
  lonmax : Int
  latmax : Int
deriving DecidableEq

/-- Model of the selector dispatch plus post-processing of
CellFileCollectionStack.read (lines 181-216): cell selectors and
location_id selectors resolve through the injected readers and then run the
sort/dedup pipeline; a bbox selector raises NotImplementedError; no selector
at all raises ValueError. -/
def stack_collection_read (w : Int)
    (cell_reader : Nat → List SortedRec) (loc_reader : Nat → List SortedRec)
    (cell : Option Nat) (location_id : Option Nat) (bbox : Option BBox) :
    Except RAError (List SortedRec) :=
  match cell with
  | some c => .ok (stack_process w (cell_reader c))
  | none =>
    match location_id with
    | some lid => .ok (stack_process w (loc_reader lid))
    | none =>
      match bbox with
      | some _ => .error .notImplemented
      | none => .error (.valueError "Need to specify either cell, location_id or bbox")

/-- Model of CellFileCollection._read_bbox (lines 786-799): the body is a bare
raise NotImplementedError (its intended implementation is commented out). -/
def read_bbox (_bbox : BBox) : Except RAError (List SortedRec) :=
  .error .notImplemented

/-- Modelled from the spec: the brute-force point-in-box filter over the full
grid that section 8 uses as the oracle for the bbox scenario (and that the
commented-out _read_bbox body would compute): keep the ids of the grid points
whose (lon, lat) fall inside the box.  A grid point is (gpi, lon, lat). -/
def bbox_filter_spec (grid : List (Int × Int × Int)) (b : BBox) : List Int :=
  (grid.filter (fun p =>
    decide (p.2.1 ≤ b.lonmax) && decide (b.lonmin ≤ p.2.1) &&
    decide (p.2.2 ≤ b.latmax) && decide (b.latmin ≤ p.2.2))).map (fun p => p.1)

/-- Model of the cell-size scan of CellFileCollectionStack.__init__
(lines 102-111): common holds the first collection's cell size once seen; the
flag is set as soon as a later collection's size differs from it, and is
never cleared. -/
def scan_cell_sizes : Option Nat → Bool → List Nat → Bool
  | _, flag, [] => flag
  | none, flag, s :: rest => scan_cell_sizes (some s) flag rest
  | some c, flag, s :: rest => scan_cell_sizes (some c) (flag || decide (s ≠ c)) rest

/-- The _different_cell_sizes attribute computed by __init__ from the member
collections' grid_cell_size values. -/
def different_cell_sizes (sizes : List Nat) : Bool :=
  scan_cell_sizes none false sizes

/-- Model of the entry guard of CellFileCollectionStack.merge_and_write
(lines 236-241): with out_cell_size unspecified and differing member cell
sizes it raises ValueError (the specification's ConfigurationError) as its
first statement, before mkdir, cell enumeration, or the process pool;
otherwise it proceeds to dispatch the per-cell writes (modelled by returning
the cell work list). -/
def merge_and_write (different_sizes : Bool) (out_cell_size : Option Nat)
    (cells : List Nat) : Except RAError (List Nat) :=
  match out_cell_size with
  | none =>
    if different_sizes then
      .error (.valueError "Different cell sizes found, need to specify out_cell_size")
    else
      .ok cells
  | some _ => .ok cells

/-- A python IOError as caught by CellFileCollection._open. -/
structure IOErr where
  errno : Int
  strerror : String
deriving DecidableEq

/-- A RuntimeWarning emitted by _open on IOError, carrying the error fields
and the cell list whose filenames were being opened. -/
structure CellWarning where
  errno : Int
  strerror : String
  cells : List Nat
deriving DecidableEq

/-- The mutable shard-handle cache of a CellFileCollection: the cell list of
the currently open handle set and the handle itself (None after close or
failed open). -/
structure CollectionState where
  previous_cell : Option (List Nat)
  fid : Option Nat
deriving DecidableEq

/-- Model of CellFileCollection.get_cell_path (lines 843-869): deterministic
path (identified with the cell id) unless the cell id falls outside
[min_cell, max_cell], in which case ValueError (the specification's
RangeError) is raised. -/
def get_cell_path (min_cell max_cell : Nat) (cell : Nat) : Except RAError Nat :=
  if cell > max_cell ∨ cell < min_cell then .error (.rangeError cell) else .ok cell

/-- Filename resolution of _open (line 723): get_cell_path for each requested
cell, propagating the range error. -/
def cell_paths (min_cell max_cell : Nat) : List Nat → Except RAError (List Nat)
  | [] => .ok []
  | c :: rest =>
    match get_cell_path min_cell max_cell c with
    | .error e => .error e
    | .ok p =>
      match cell_paths min_cell max_cell rest with
      | .error e => .error e
      | .ok ps => .ok (p :: ps)

/-- Unordered set equality of two cell lists, as set(previous_cell) !=
set(cell) in _open (line 728). -/
def sameSet (a b : List Nat) : Bool :=
  a.all (fun x => x ∈ b) && b.all (fun x => x ∈ a)

/-- Model of CellFileCollection._open (lines 695-742).  open_fn is the
injected ioclass constructor, mapping the resolved filenames to a handle or
an IOError.  If the requested cell set equals the cached one the open is
skipped; otherwise the old handle is closed and a new open attempted.  An
IOError is caught: the function warns, resets the cache, and reports
success = false instead of raising. -/
def open_cells (min_cell max_cell : Nat) (open_fn : List Nat → Except IOErr Nat)
    (st : CollectionState) (cells : List Nat) :
    Except RAError (Bool × CollectionState × List CellWarning) :=
  match cell_paths min_cell max_cell cells with
  | .error e => .error e
  | .ok fnames =>
    let tryOpen :=
      match open_fn fnames with
      | .ok h => (true, CollectionState.mk (some cells) (some h), ([] : List CellWarning))
      | .error e => (false, CollectionState.mk none none, [CellWarning.mk e.errno e.strerror cells])
    match st.previous_cell with
    | none => .ok tryOpen
    | some pc => if sameSet pc cells then .ok (true, st, []) else .ok tryOpen

/-- Model of CellFileCollection._read_cell (lines 744-764): data is None
unless _open succeeded, in which case the open handle is read.  (If a cache
hit left fid = None the source would fail on fid.read; that path is not
reachable from a fresh state and is modelled as returning no data.) -/
def read_cell {α : Type} (min_cell max_cell : Nat)
    (open_fn : List Nat → Except IOErr Nat) (read_fn : Nat → α)
    (st : CollectionState) (cell : Nat) :
    Except RAError (Option α × CollectionState × List CellWarning) :=
  match open_cells min_cell max_cell open_fn st [cell] with
  | .error e => .error e
  | .ok (succ, st2, ws) =>
    if succ then
      match st2.fid with
      | some h => .ok (some (read_fn h), st2, ws)
      | none => .ok (none, st2, ws)
    else
      .ok (none, st2, ws)

/-- Model of the gathering step of CellFileCollectionStack._read_cells
(line 344): data = [ds for ds in data if ds is not None] — shards that
yielded no data are dropped and the merge continues with the rest. -/
def gather_cell_reads {α : Type} (reads : List (Option α)) : List α :=
  reads.filterMap id

/-- One observation of a processed swath buffer: the cell it was binned to
(via grid.gpi2cell) and its time stamp. -/
structure SwathRec where
  cell : Nat
  time : Int
deriving DecidableEq

/-- The distinct cell ids of a processed buffer, as np.unique(ds.cell.values)
in _parallel_write_cells (line 1083); np.unique also sorts, which does not
affect which per-cell subsets are dispatched. -/
def unique_cells (recs : List SwathRec) : List Nat :=
  (recs.map SwathRec.cell).dedup

/-- The per-cell observation subset dispatched to one write task:
ds.isel(obs=np.where(ds.cell.values == cell)[0]) (line 1086). -/
def cell_subset (recs : List SwathRec) (c : Nat) : List SwathRec :=
  recs.filter (fun r => decide (r.cell = c))

/-- Model of the buffered accumulation loop of SwathFileCollection.stack
(lines 1210-1252).  buf holds the indices of the buffered overpass files, bs
the tracked cumulative size in MB, idx the index of the next file.  Reading
file idx first adds its size; if the budget is now exceeded the current
buffer is flushed (the file that triggered the flush is excluded and starts
the next buffer).  After the loop a non-empty buffer is flushed once more.
The returned list contains the flushed batches in order. -/
def stackLoop (budget : Nat) (buf : List Nat) (bs : Nat) (idx : Nat) :
    List Nat → List (List Nat)
  | [] => if buf.isEmpty then [] else [buf]
  | size :: rest =>
    if bs + size > budget then
      buf :: stackLoop budget [idx] size (idx + 1) rest
    else
      stackLoop budget (buf ++ [idx]) (bs + size) (idx + 1) rest

/-- The flush batches produced by SwathFileCollection.stack over input files
of the given byte sizes (in MB) under the given buffer budget (in MB). -/
def stackFlushes (budget : Nat) (sizes : List Nat) : List (List Nat) :=
  stackLoop budget [] 0 0 sizes

/-- Model of line 100, self.dupe_window = dupe_window or np.timedelta64(10,
"m"): python or-defaulting replaces None (and the falsy zero timedelta) by
10 minutes.  Windows are in minutes. -/
def stack_dupe_window (w : Option Int) : Int :=
  match w with
  | none => 10
  | some v => if v = 0 then 10 else v

/-- Model of line 1019 in SwathFileCollection._cell_data_as_indexed_ra, the
same or-defaulting to np.timedelta64(10, "m") on the per-cell write path. -/
def cell_ra_dupe_window (w : Option Int) : Int :=
  match w with
  | none => 10
  | some v => if v = 0 then 10 else v

/-- Model of lines 311-312 in CellFileCollectionStack._read_cells: an
explicit None test replaced by np.timedelta64(10, "m"). -/
def read_cells_dupe_window (w : Option Int) : Int :=
  match w with
  | none => 10
  | some v => v

/-! Helper lemmas about the stable sort. -/

theorem insertOrd_of_le_all (le : α → α → Bool) (a : α) (l : List α)
    (h : ∀ b ∈ l, le b a = true) : insertOrd le a l = l ++ [a] := by
  induction l with
  | nil => rfl
  | cons b bs ih =>
    have hb : le b a = true := h b (List.mem_cons_self b bs)
    simp only [insertOrd, hb, if_true, List.cons_append]
    rw [ih (fun x hx => h x (List.mem_cons_of_mem b hx))]

theorem stableSort_append_singleton (le : α → α → Bool) (l : List α) (a : α) :
    stableSort le (l ++ [a]) = insertOrd le a (stableSort le l) := by
  simp [stableSort, List.foldl_append]

theorem stableSort_eq_self (le : α → α → Bool) (l : List α)
    (h : List.Pairwise (fun a b => le a b = true) l) : stableSort le l = l := by
  induction l using List.reverseRecOn with
  | nil => rfl
  | append_singleton l a ih =>
    rw [List.pairwise_append] at h
    rw [stableSort_append_singleton, ih h.1]
    exact insertOrd_of_le_all le a l
      (fun b hb => h.2.2 b hb a (List.mem_singleton_self a))

theorem insertOrd_perm (le : α → α → Bool) (a : α) (l : List α) :
    (insertOrd le a l).Perm (a :: l) := by
  induction l with
  | nil => exact List.Perm.refl _
  | cons b bs ih =>
    by_cases hb : le b a = true
    · simp only [insertOrd, hb, if_true]
      exact (ih.cons b).trans (List.Perm.swap a b bs)
    · simp only [insertOrd, hb, if_false]
      exact List.Perm.refl _

theorem stableSort_perm (le : α → α → Bool) (l : List α) : (stableSort le l).Perm l := by
  induction l using List.reverseRecOn with
  | nil => exact List.Perm.refl _
  | append_singleton l a ih =>
    rw [stableSort_append_singleton]
    exact ((insertOrd_perm le a (stableSort le l)).trans (ih.cons a)).trans
      (List.perm_append_singleton a l).symm

/-! Helper lemmas about repeatArange. -/

theorem repeatArange_length (rs : List Int) : ∀ s : Int,
    (repeatArange s rs).length = (rs.map Int.toNat).sum := by
  induction rs with
  | nil => intro s; rfl
  | cons c rest ih => intro s; simp [repeatArange, ih]

theorem repeatArange_mem (rs : List Int) : ∀ (s v : Int), v ∈ repeatArange s rs →
    s ≤ v ∧ v < s + rs.length := by
  induction rs with
  | nil => intro s v hv; simp [repeatArange] at hv
  | cons c rest ih =>
    intro s v hv
    simp only [repeatArange, List.mem_append] at hv
    rcases hv with hv | hv
    · have := List.eq_of_mem_replicate hv
      subst this
      simp only [List.length_cons]
      push_cast
      omega
    · have := ih (s + 1) v hv
      simp only [List.length_cons]
      push_cast
      push_cast at this
      omega

theorem repeatArange_countP_lt (rs : List Int) : ∀ (s k : Int), k < s →
    (repeatArange s rs).countP (fun v => decide (v = k)) = 0 := by
  induction rs with
  | nil => intro s k _; rfl
  | cons c rest ih =>
    intro s k hk
    have hne : ¬ (s = k) := by omega
    simp only [repeatArange, List.countP_append, List.countP_replicate]
    simp [hne, ih (s + 1) k (by omega)]

theorem repeatArange_countP (rs : List Int) : ∀ (s : Int) (i : Nat), i < rs.length →
    (repeatArange s rs).countP (fun v => decide (v = s + (i : Int))) = (rs.getD i 0).toNat := by
  induction rs with
  | nil => intro s i hi; simp at hi
  | cons c rest ih =>
    intro s i hi
    cases i with
    | zero =>
      have h2 : (repeatArange (s + 1) rest).countP (fun v => decide (v = s)) = 0 :=
        repeatArange_countP_lt rest (s + 1) s (by omega)
      simp [repeatArange, List.countP_append, List.countP_replicate, h2]
    | succ j =>
      simp only [repeatArange, List.countP_append, List.countP_replicate,
        List.getD_cons_succ]
      have h1 : ¬ (s = s + ((j + 1 : Nat) : Int)) := by push_cast; omega
      have hval : s + ((j + 1 : Nat) : Int) = (s + 1) + (j : Int) := by push_cast; ring
      simp only [hval]
      have := ih (s + 1) j (by simpa using Nat.lt_of_succ_lt_succ hi)
      simp only [this]
      have h1b : ¬ (s = s + 1 + (j : Int)) := by omega
      simp [h1b]

/-! Helper lemmas for counting locationIndex values over the location range. -/

theorem sum_map_add_nat (l : List β) (f g : β → Nat) :
    (l.map (fun x => f x + g x)).sum = (l.map f).sum + (l.map g).sum := by
  induction l with
  | nil => rfl
  | cons b bs ih =>
    simp only [List.map_cons, List.sum_cons, ih]
    omega

theorem range_indicator_sum (v : Int) : ∀ (n : Nat), 0 ≤ v → v < n →
    ((List.range n).map (fun (i : Nat) => if v = (i : Int) then 1 else 0)).sum = 1 := by
  intro n
  induction n with
  | zero => intro h0 hn; omega
  | succ m ih =>
    intro h0 hn
    rw [List.range_succ, List.map_append, List.sum_append]
    by_cases hv : v = (m : Int)
    · have hpre : ((List.range m).map (fun (i : Nat) => if v = (i : Int) then 1 else 0)).sum = 0 := by
        apply List.sum_eq_zero
        intro x hx
        simp only [List.mem_map] at hx
        obtain ⟨i, hi, rfl⟩ := hx
        have hlt := List.mem_range.mp hi
        have : ¬ (v = (i : Int)) := by omega
        simp [this]
      rw [hpre]
      simp [hv]
    · have hlt : v < (m : Int) := by omega
      simp [ih h0 hlt, hv]

theorem counts_range_sum (n : Nat) : ∀ (li : List Int), (∀ v ∈ li, 0 ≤ v ∧ v < (n : Int)) →
    ((List.range n).map (fun (i : Nat) => li.countP (fun v => decide (v = (i : Int))))).sum = li.length := by
  intro li
  induction li with
  | nil =>
    intro _
    apply List.sum_eq_zero
    intro x hx
    simp only [List.mem_map] at hx
    obtain ⟨i, _, rfl⟩ := hx
    rfl
  | cons v rest ih =>
    intro h
    have hv := h v (List.mem_cons_self v rest)
    have hr : ∀ x ∈ rest, 0 ≤ x ∧ x < (n : Int) :=
      fun x hx => h x (List.mem_cons_of_mem v hx)
    simp only [List.countP_cons]
    rw [sum_map_add_nat, ih hr]
    have hone : ((List.range n).map
        (fun (i : Nat) => if (fun x => decide (x = (i : Int))) v = true then 1 else 0)).sum = 1 := by
      simp only [decide_eq_true_eq]
      exact range_indicator_sum v n hv.1 hv.2
    rw [hone]
    simp

/-! Helper lemmas relating the numpy duplicate mask to its recursive form. -/

theorem dedupGo_filter_snd (w : Int) : ∀ (l : List SortedRec) (prev : SortedRec),
    (((prev :: l).zip l).filter (fun q => !(decide (|q.2.time - q.1.time| < w)))).map Prod.snd
      = dedupGo w prev.time l := by
  intro l
  induction l with
  | nil => intro prev; rfl
  | cons r rs ih =>
    intro prev
    simp only [List.zip_cons_cons, List.filter_cons]
    by_cases hd : |r.time - prev.time| < w
    · simp [dedupGo, hd, ih r]
    · simp [dedupGo, hd, ih r]

theorem dedupe_zip_aux (w : Int) : ∀ (l : List SortedRec) (prev : SortedRec),
    ((l.zip (((prev :: l).zip l).map (fun q => decide (|q.2.time - q.1.time| < w)))).filter
        (fun q => !q.2)).map Prod.fst = dedupGo w prev.time l := by
  intro l
  induction l with
  | nil => intro prev; rfl
  | cons r rs ih =>
    intro prev
    simp only [List.zip_cons_cons, List.map_cons, List.filter_cons]
    by_cases hd : |r.time - prev.time| < w
    · simp [dedupGo, hd, ih r]
    · simp [dedupGo, hd, ih r]

theorem dedupe_eq_rec (w : Int) (l : List SortedRec) : dedupe w l = dedupAdjRec w l := by
  cases l with
  | nil => rfl
  | cons a rest =>
    show (((a :: rest).zip (dupeMask w ((a :: rest).map SortedRec.time))).filter
        (fun q => !q.2)).map Prod.fst = a :: dedupGo w a.time rest
    have hmask : dupeMask w ((a :: rest).map SortedRec.time)
        = false :: (((a :: rest).zip rest).map (fun q => decide (|q.2.time - q.1.time| < w))) := by
      show false :: (((a :: rest).map SortedRec.time).zip (rest.map SortedRec.time)).map
            (fun q => decide (|q.2 - q.1| < w))
          = false :: (((a :: rest).zip rest).map (fun q => decide (|q.2.time - q.1.time| < w)))
      rw [List.zip_map, List.map_map]
      rfl
    rw [hmask]
    simp only [List.zip_cons_cons, List.filter_cons, Bool.not_false, if_true, List.map_cons]
    rw [dedupe_zip_aux w rest a]

/-! Helper lemmas about adjacent time gaps after deduplication. -/

theorem chain_gap_weaken (w : Int) (p prev : Int) (hle : prev ≤ p) (L : List Int)
    (h : List.Chain (fun x y => w ≤ y - x) p L) : List.Chain (fun x y => w ≤ y - x) prev L := by
  cases L with
  | nil => exact List.Chain.nil
  | cons s L2 =>
    rw [List.chain_cons] at h ⊢
    exact ⟨by omega, h.2⟩

theorem dedupGo_chain_gap (w : Int) : ∀ (l : List SortedRec) (prev : Int),
    List.Chain (· ≤ ·) prev (l.map SortedRec.time) →
    List.Chain (fun x y => w ≤ y - x) prev ((dedupGo w prev l).map SortedRec.time) := by
  intro l
  induction l with
  | nil => intro prev _; exact List.Chain.nil
  | cons r rs ih =>
    intro prev h
    rw [List.map_cons, List.chain_cons] at h
    by_cases hd : |r.time - prev| < w
    · rw [dedupGo, if_pos hd]
      exact chain_gap_weaken w r.time prev h.1 _ (ih r.time h.2)
    · rw [dedupGo, if_neg hd, List.map_cons, List.chain_cons]
      constructor
      · have habs : w ≤ |r.time - prev| := le_of_not_lt hd
        have hnn : (0 : Int) ≤ r.time - prev := by omega
        rw [abs_of_nonneg hnn] at habs
        exact habs
      · exact ih r.time h.2

theorem dedupGo_of_chain_gap (w : Int) : ∀ (l : List SortedRec) (prev : Int),
    List.Chain (fun x y => w ≤ y - x) prev (l.map SortedRec.time) →
    dedupGo w prev l = l := by
  intro l
  induction l with
  | nil => intro prev _; rfl
  | cons r rs ih =>
    intro prev h
    rw [List.map_cons, List.chain_cons] at h
    have hnd : ¬ (|r.time - prev| < w) := by
      have := le_abs_self (r.time - prev)
      omega
    rw [dedupGo, if_neg hnd, ih r.time h.2]

/-! Helper lemma for the cell-size scan. -/

theorem scan_cell_sizes_some (c : Nat) : ∀ (l : List Nat) (f : Bool),
    scan_cell_sizes (some c) f l = (f || l.any (fun s => decide (s ≠ c))) := by
  intro l
  induction l with
  | nil => intro f; simp [scan_cell_sizes]
  | cons s rest ih =>
    intro f
    show scan_cell_sizes (some c) (f || decide (s ≠ c)) rest = _
    rw [ih (f || decide (s ≠ c))]
    simp [List.any_cons, Bool.or_assoc]

/-! Helper lemmas for the buffered flush loop and the per-cell partition. -/

theorem stackLoop_flatten (budget : Nat) : ∀ (sizes : List Nat) (buf : List Nat) (bs idx : Nat),
    (stackLoop budget buf bs idx sizes).flatten = buf ++ List.range' idx sizes.length := by
  intro sizes
  induction sizes with
  | nil =>
    intro buf bs idx
    by_cases hb : buf.isEmpty
    · rw [List.isEmpty_iff.mp hb]
      rfl
    · show (if buf.isEmpty then ([] : List (List Nat)) else [buf]).flatten = _
      rw [if_neg hb]
      simp
  | cons size rest ih =>
    intro buf bs idx
    by_cases hflush : bs + size > budget
    · show (if bs + size > budget then
          buf :: stackLoop budget [idx] size (idx + 1) rest
        else stackLoop budget (buf ++ [idx]) (bs + size) (idx + 1) rest).flatten = _
      rw [if_pos hflush]
      rw [List.flatten_cons, ih [idx] size (idx + 1)]
      rw [List.length_cons, List.range'_succ]
      rfl
    · show (if bs + size > budget then
          buf :: stackLoop budget [idx] size (idx + 1) rest
        else stackLoop budget (buf ++ [idx]) (bs + size) (idx + 1) rest).flatten = _
      rw [if_neg hflush]
      rw [ih (buf ++ [idx]) (bs + size) (idx + 1)]
      rw [List.length_cons, List.range'_succ]
      simp

theorem cells_partition (recs : List SwathRec) :
    ((unique_cells recs).map (fun c => (cell_subset recs c).length)).sum = recs.length := by
  have base := List.sum_map_count_dedup_eq_length (recs.map SwathRec.cell)
  have hcount : ∀ c : Nat, List.count c (recs.map SwathRec.cell) = (cell_subset recs c).length := by
    intro c
    rw [List.count_eq_countP, List.countP_map]
    show recs.countP (fun r => r.cell == c) = _
    rw [List.countP_eq_length_filter]
    show (recs.filter (fun r => r.cell == c)).length = (recs.filter (fun r => decide (r.cell = c))).length
    have : (fun (r : SwathRec) => r.cell == c) = (fun (r : SwathRec) => decide (r.cell = c)) := by
      funext r
      by_cases h : r.cell = c
      · simp [h]
      · simp [h]
    rw [this]
  show ((recs.map SwathRec.cell).dedup.map (fun c => (cell_subset recs c).length)).sum = recs.length
  rw [List.map_congr_left (fun c _ => (hcount c).symm)]
  rw [base, List.length_map]

/-! Claim theorems. -/

/-- C10: whenever no dedup window is configured (the dupe_window argument is
None or omitted), the collection-stack constructor (used by read/merge), the
_read_cells helper, and the swath-stacking per-cell write path all default
the dedup window to exactly 10 minutes (np.timedelta64(10, "m")). -/
theorem c10_default_dupe_window :
    stack_dupe_window none = 10 ∧ cell_ra_dupe_window none = 10 ∧
      read_cells_dupe_window none = 10 :=
  ⟨rfl, rfl, rfl⟩

/-- C6: contiguous_to_indexed fails with the specification's SchemaError (a
python ValueError) when the input lacks the row_size variable, and
indexed_to_contiguous fails likewise when the input lacks the locationIndex
variable; in both cases the conversion aborts with an error and produces no
result dataset. -/
theorem c6_schema_errors :
    (∀ ds : Dataset, ds.row_size = none →
      contiguous_to_indexed ds
        = .error (.schemaError "dataset must have a row_size variable")) ∧
    (∀ ds : Dataset, ds.locationIndex = none →
      indexed_to_contiguous ds
        = .error (.schemaError "dataset must have a locationIndex variable")) := by
  constructor
  · intro ds h
    unfold contiguous_to_indexed
    rw [h]
  · intro ds h
    unfold indexed_to_contiguous
    rw [h]

/-- Witness for C6 at concrete datasets missing the required variables. -/
theorem c6_schema_errors_witness :
    contiguous_to_indexed (Dataset.mk none none [1] [])
      = .error (.schemaError "dataset must have a row_size variable") ∧
    indexed_to_contiguous (Dataset.mk (some [0]) none [1] [])
      = .error (.schemaError "dataset must have a locationIndex variable") :=
  ⟨c6_schema_errors.1 _ rfl, c6_schema_errors.2 _ rfl⟩

/-- C4: for a stack whose member collections disagree on native cell size,
the __init__ scan sets _different_cell_sizes, so merge_and_write with
out_cell_size unspecified raises the configuration error as its very first
step (before any I/O); supplying any explicit out_cell_size passes the guard
and the per-cell write work proceeds. -/
theorem c4_cell_size_guard (sizes : List Nat) (cells : List Nat)
    (h : ∃ a ∈ sizes, ∃ b ∈ sizes, a ≠ b) :
    different_cell_sizes sizes = true ∧
    merge_and_write (different_cell_sizes sizes) none cells
      = .error (.valueError "Different cell sizes found, need to specify out_cell_size") ∧
    ∀ s : Nat, merge_and_write (different_cell_sizes sizes) (some s) cells = .ok cells := by
  have hflag : different_cell_sizes sizes = true := by
    obtain ⟨a, ha, b, hb, hab⟩ := h
    cases sizes with
    | nil => simp at ha
    | cons hd tl =>
      show scan_cell_sizes (some hd) false tl = true
      rw [scan_cell_sizes_some]
      simp only [Bool.false_or, List.any_eq_true, decide_eq_true_eq]
      rcases List.mem_cons.mp ha with rfl | ha2
      · rcases List.mem_cons.mp hb with rfl | hb2
        · exact absurd rfl hab
        · exact ⟨b, hb2, Ne.symm hab⟩
      · rcases List.mem_cons.mp hb with rfl | hb2
        · exact ⟨a, ha2, hab⟩
        · by_cases hahd : a = hd
          · exact ⟨b, hb2, by rw [← hahd]; exact Ne.symm hab⟩
          · exact ⟨a, ha2, hahd⟩
  refine ⟨hflag, ?_, ?_⟩
  · rw [hflag]
    rfl
  · intro s
    rfl

/-- Witness for C4: two collections with native cell sizes 5 and 10. -/
theorem c4_cell_size_guard_witness :
    different_cell_sizes [5, 10] = true ∧
    merge_and_write (different_cell_sizes [5, 10]) none [42]
      = .error (.valueError "Different cell sizes found, need to specify out_cell_size") ∧
    merge_and_write (different_cell_sizes [5, 10]) (some 10) [42] = .ok [42] := by
  have h := c4_cell_size_guard [5, 10] [42]
    ⟨5, by simp, 10, by simp, by decide⟩
  exact ⟨h.1, h.2.1, h.2.2 10⟩

/-- C3 counterexample: with input overpass sizes [4MB, 4MB, 4MB] and a 6MB
budget the stack loop performs three flush cycles ([overpass 0], [overpass 1],
[overpass 2]), not the two flush cycles the claim states: the file that
trips the budget is excluded from the flushed batch and starts the next
buffer, so the first flush (triggered while reading overpass 1) writes only
overpass 0. -/
theorem c3_flush_counterexample :
    stackFlushes 6 [4, 4, 4] = [[0], [1], [2]] ∧
    (stackFlushes 6 [4, 4, 4]).length ≠ 2 :=
  ⟨rfl, by decide⟩

/-- C3 amended: with sizes [4MB, 4MB, 4MB] and a 6MB budget exactly three
flush cycles occur (after overpass 2 flushing overpass 1 only, after
overpass 3 flushing overpass 2 only, and a final flush of overpass 3); every
overpass is flushed exactly once in order (so no observation is lost or
duplicated by the buffering), and the per-cell partition of a processed
buffer conserves the observation count, so the total output count equals
the input sum minus the dropped/duplicate observations. -/
theorem c3_flush_behavior :
    stackFlushes 6 [4, 4, 4] = [[0], [1], [2]] ∧
    (∀ (budget : Nat) (sizes : List Nat),
      (stackFlushes budget sizes).flatten = List.range sizes.length) ∧
    (∀ recs : List SwathRec,
      ((unique_cells recs).map (fun c => (cell_subset recs c).length)).sum = recs.length) := by
  refine ⟨rfl, ?_, cells_partition⟩
  intro budget sizes
  rw [stackFlushes, stackLoop_flatten budget sizes [] 0 0]
  rw [List.range_eq_range']
  rfl

/-- C9 counterexample: on a two-point grid the brute-force point-in-box
filter for the box [-10, 10] x [-10, 10] returns location id 1, but a bbox
read on the collection stack raises NotImplementedError instead of returning
those ids. -/
theorem c9_bbox_counterexample :
    stack_collection_read 10 (fun _ => []) (fun _ => []) none none
        (some (BBox.mk (-10) (-10) 10 10)) = .error .notImplemented ∧
    bbox_filter_spec [(1, 0, 0), (2, 50, 50)] (BBox.mk (-10) (-10) 10 10) = [1] :=
  ⟨rfl, rfl⟩

/-- C9 amended: a bbox read is unimplemented: for every bounding box both
CellFileCollectionStack.read with a bbox selector and
CellFileCollection._read_bbox raise NotImplementedError (the commented-out
body of _read_bbox would compute the brute-force point-in-box filter). -/
theorem c9_bbox_not_implemented :
    (∀ (w : Int) (cr lr : Nat → List SortedRec) (b : BBox),
      stack_collection_read w cr lr none none (some b) = .error .notImplemented) ∧
    (∀ b : BBox, read_bbox b = .error .notImplemented) :=
  ⟨fun _ _ _ _ => rfl, fun _ => rfl⟩

/-- C2 counterexample: the claim states that after sorting, observation i is
dropped iff time[i] - time[i-1] < dupe_window.  The code compares the
absolute difference.  In this already (sat_id, locationIndex, time)-sorted
merge result the second observation (a different location) has signed
adjacent difference -20 minutes, which is below the 10-minute window, yet
the pipeline keeps both observations. -/
theorem c2_dedup_counterexample :
    stack_process 10 [SortedRec.mk 3 0 20 0, SortedRec.mk 3 1 0 1]
      = [SortedRec.mk 3 0 20 0, SortedRec.mk 3 1 0 1] ∧
    (SortedRec.mk 3 1 0 1).time - (SortedRec.mk 3 0 20 0).time < 10 :=
  ⟨rfl, by decide⟩

/-- C2 amended: in the sorted result, the first observation is never dropped
and observation i (i >= 1) is dropped iff the absolute adjacent difference
satisfies |time[i] - time[i-1]| < dupe_window, the predecessor being taken in
the original sorted array (not the last retained observation); in particular
one location with observation times [0, 3, 15] minutes and a 10-minute
window keeps exactly the observations at times 0 and 15. -/
theorem c2_dedup_rule :
    (∀ (w : Int) (a : SortedRec) (rest : List SortedRec),
      dedupe w (a :: rest) =
        a :: (((a :: rest).zip rest).filter
          (fun q => !(decide (|q.2.time - q.1.time| < w)))).map Prod.snd) ∧
    stack_process 10 [SortedRec.mk 3 0 0 0, SortedRec.mk 3 0 3 1, SortedRec.mk 3 0 15 2]
      = [SortedRec.mk 3 0 0 0, SortedRec.mk 3 0 15 2] := by
  constructor
  · intro w a rest
    rw [dedupe_eq_rec]
    show a :: dedupGo w a.time rest = _
    rw [dedupGo_filter_snd w rest a]
  · rfl

/-- C8 counterexample: the list below is sorted by (sat_id, locationIndex,
time) and is itself the output of one dedup pass over a sorted list (times
[0, 100, 105, 93]; the observation at t = 105 is dropped), yet a second
dedup pass drops the observation at t = 93 (|93 - 100| = 7 < 10), so the
dedup pass is not idempotent on sorted, already-deduplicated data. -/
theorem c8_idempotence_counterexample :
    List.Pairwise (fun a b => lexTripleLe a b = true)
      (dedupe 10 [SortedRec.mk 3 0 0 0, SortedRec.mk 3 0 100 1,
        SortedRec.mk 3 1 105 2, SortedRec.mk 3 2 93 3]) ∧
    dedupe 10 (dedupe 10 [SortedRec.mk 3 0 0 0, SortedRec.mk 3 0 100 1,
        SortedRec.mk 3 1 105 2, SortedRec.mk 3 2 93 3])
      ≠ dedupe 10 [SortedRec.mk 3 0 0 0, SortedRec.mk 3 0 100 1,
        SortedRec.mk 3 1 105 2, SortedRec.mk 3 2 93 3] :=
  ⟨by decide, by decide⟩

/-- C8 amended: the dedup pass is idempotent on every observation sequence
whose times are non-decreasing along the list (in particular on sorted,
deduplicated data of a single satellite and location): after one pass all
adjacent retained gaps are at least the window, so a second pass drops
nothing.  When the (sat_id, locationIndex, time) sort makes time decrease
across location boundaries, idempotence can fail (see the counterexample). -/
theorem c8_idempotent_on_monotone_times (w : Int) (l : List SortedRec)
    (h : List.Chain' (fun a b => a.time ≤ b.time) l) :
    dedupe w (dedupe w l) = dedupe w l := by
  simp only [dedupe_eq_rec]
  cases l with
  | nil => rfl
  | cons a rest =>
    show dedupAdjRec w (a :: dedupGo w a.time rest) = a :: dedupGo w a.time rest
    show a :: dedupGo w a.time (dedupGo w a.time rest) = a :: dedupGo w a.time rest
    have hchain : List.Chain (fun x y : SortedRec => x.time ≤ y.time) a rest := h
    have hgap := dedupGo_chain_gap w rest a.time
      ((List.chain_map SortedRec.time).mpr hchain)
    rw [dedupGo_of_chain_gap w (dedupGo w a.time rest) a.time hgap]

/-- Witness for C8 at a concrete monotone-time sequence. -/
theorem c8_idempotent_on_monotone_times_witness :
    dedupe 10 (dedupe 10 [SortedRec.mk 3 0 0 0, SortedRec.mk 3 0 20 1, SortedRec.mk 3 0 25 2])
      = dedupe 10 [SortedRec.mk 3 0 0 0, SortedRec.mk 3 0 20 1, SortedRec.mk 3 0 25 2] :=
  c8_idempotent_on_monotone_times 10 _
    (by simp [List.chain'_cons, List.chain'_singleton])

/-- C7: when the shard file for an in-range requested cell fails to open
(the injected opener raises IOError) and no matching handle is cached, the
read is non-fatal: _open catches the error, emits one recoverable warning
carrying errno/strerror, resets the handle cache, and _read_cell returns no
data instead of raising; the stack-level gather then drops the empty
contribution and continues the merge with the remaining shards. -/
theorem c7_open_failure_nonfatal {α : Type} (min_cell max_cell : Nat)
    (open_fn : List Nat → Except IOErr Nat) (read_fn : Nat → α)
    (st : CollectionState) (cell : Nat) (e : IOErr) (rest : List (Option α))
    (hmin : min_cell ≤ cell) (hmax : cell ≤ max_cell)
    (hcache : st.previous_cell = none)
    (hopen : open_fn [cell] = .error e) :
    read_cell min_cell max_cell open_fn read_fn st cell
      = .ok (none, CollectionState.mk none none, [CellWarning.mk e.errno e.strerror [cell]]) ∧
    gather_cell_reads (none :: rest) = gather_cell_reads rest := by
  constructor
  · have hpath : get_cell_path min_cell max_cell cell = .ok cell := by
      unfold get_cell_path
      rw [if_neg]
      omega
    have hpaths : cell_paths min_cell max_cell [cell] = .ok [cell] := by
      unfold cell_paths
      rw [hpath]
      rfl
    simp only [read_cell, open_cells, hpaths, hcache, hopen]
    rfl
  · rfl

/-- Witness for C7 with a concrete failing opener. -/
theorem c7_open_failure_nonfatal_witness :
    read_cell 0 100 (fun _ => .error (IOErr.mk 2 "No such file or directory"))
        (fun (h : Nat) => h) (CollectionState.mk none none) 5
      = .ok (none, CollectionState.mk none none,
          [CellWarning.mk 2 "No such file or directory" [5]]) ∧
    gather_cell_reads (none :: [some 7, none]) = gather_cell_reads [some 7, none] :=
  c7_open_failure_nonfatal 0 100 _ _ _ 5 (IOErr.mk 2 "No such file or directory")
    [some 7, none] (by decide) (by decide) rfl rfl

/-- C5: for an indexed dataset with N locations whose locationIndex values
lie in [0, N), indexed_to_contiguous computes row_size by a full-range count
over [0, N) of the original locationIndex values (so a location with zero
observations gets row_size 0), the resulting vector has one entry per
location, and the counts sum to the total observation count M. -/
theorem c5_row_size_full_range_count (ds : Dataset) (li : List Int)
    (hli : ds.locationIndex = some li)
    (hlen : li.length = ds.obs.length)
    (hbound : ∀ v ∈ li, 0 ≤ v ∧ v < (ds.location_id.length : Int)) :
    (indexed_to_contiguous ds).map Dataset.row_size
      = .ok (some ((List.range ds.location_id.length).map
          (fun (i : Nat) => ((li.countP (fun v => decide (v = (i : Int)))) : Int)))) ∧
    ((List.range ds.location_id.length).map
        (fun (i : Nat) => li.countP (fun v => decide (v = (i : Int))))).sum
      = ds.obs.length := by
  have hguard : li.all (fun v => decide (-(ds.location_id.length : Int) ≤ v)
      && decide (v < (ds.location_id.length : Int))) = true := by
    rw [List.all_eq_true]
    intro v hv
    have := hbound v hv
    simp only [Bool.and_eq_true, decide_eq_true_eq]
    omega
  have hcount : ∀ i : Nat,
      (stableSort pairLex (li.zip ds.obs)).countP
          (fun p => decide (normIdx ds.location_id.length p.1 = (i : Int)))
        = li.countP (fun v => decide (v = (i : Int))) := by
    intro i
    rw [(stableSort_perm pairLex (li.zip ds.obs)).countP_eq]
    have hmap : li = (li.zip ds.obs).map Prod.fst :=
      (List.map_fst_zip li ds.obs (le_of_eq hlen)).symm
    have step1 : (li.zip ds.obs).countP
        (fun p => decide (normIdx ds.location_id.length p.1 = (i : Int)))
        = li.countP (fun v => decide (normIdx ds.location_id.length v = (i : Int))) := by
      conv_rhs => rw [hmap]
      rw [List.countP_map]
      rfl
    rw [step1]
    apply List.countP_congr
    intro v hv
    have hb := hbound v hv
    have hnorm : normIdx ds.location_id.length v = v := by
      unfold normIdx
      rw [if_neg (by omega)]
    rw [hnorm]
  constructor
  · simp only [indexed_to_contiguous, hli, hguard, if_true, Except.map]
    congr 1
    congr 1
    apply List.map_congr_left
    intro i _
    rw [hcount i]
  · rw [← hlen]
    exact counts_range_sum ds.location_id.length li hbound

/-- Witness for C5: three observations on two locations (location 0 has one
observation, location 1 has two). -/
theorem c5_row_size_full_range_count_witness :
    (indexed_to_contiguous
        (Dataset.mk none (some [1, 0, 1]) [10, 20] [Obs.mk 4 0, Obs.mk 1 1, Obs.mk 9 2])).map
        Dataset.row_size
      = .ok (some ((List.range 2).map
          (fun (i : Nat) => ((([1, 0, 1] : List Int).countP (fun v => decide (v = (i : Int)))) : Int)))) ∧
    ((List.range 2).map
        (fun (i : Nat) => ([1, 0, 1] : List Int).countP (fun v => decide (v = (i : Int))))).sum
      = 3 :=
  c5_row_size_full_range_count
    (Dataset.mk none (some [1, 0, 1]) [10, 20] [Obs.mk 4 0, Obs.mk 1 1, Obs.mk 9 2])
    [1, 0, 1] rfl rfl (by decide)

/-- C1 counterexample: a well-formed contiguous dataset (row_size present,
observations grouped by location in ascending location order) whose single
location carries times [5, 3].  The round trip reorders the observations to
[3, 5] because indexed_to_contiguous sorts by (locationIndex, time), so the
per-location observation order is not reproduced. -/
theorem c1_round_trip_counterexample :
    (contiguous_to_indexed
        (Dataset.mk (some [2]) none [7] [Obs.mk 5 0, Obs.mk 3 1])).bind indexed_to_contiguous
      = .ok (Dataset.mk (some [2]) none [7] [Obs.mk 3 1, Obs.mk 5 0]) ∧
    (Dataset.mk (some [2]) none [7] [Obs.mk 3 1, Obs.mk 5 0]).obs
      ≠ (Dataset.mk (some [2]) none [7] [Obs.mk 5 0, Obs.mk 3 1]).obs :=
  ⟨rfl, by decide⟩

/-- C1 amended: for a well-formed contiguous dataset (row_size present with
non-negative counts summing to the observation count, one count per
location) whose observation times are additionally non-decreasing within
each location (stated below as the expanded (locationIndex, time) key being
sorted, which is equivalent given the grouped layout), converting to the
indexed layout and back reproduces the dataset exactly: same row_size
vector, same per-location observation grouping and order. -/
theorem c1_round_trip (ds : Dataset) (rs : List Int)
    (hrs : ds.row_size = some rs)
    (hli : ds.locationIndex = none)
    (hpos : ∀ c ∈ rs, 0 ≤ c)
    (hlen : rs.length = ds.location_id.length)
    (hsum : (rs.map Int.toNat).sum = ds.obs.length)
    (hsorted : List.Pairwise (fun p q => pairLex p q = true)
      ((repeatArange 0 rs).zip ds.obs)) :
    (contiguous_to_indexed ds).bind indexed_to_contiguous = .ok ds := by
  obtain ⟨rso, lio, lid, obs⟩ := ds
  have hrs2 : rso = some rs := hrs
  have hli2 : lio = none := hli
  subst hrs2
  subst hli2
  have hlen2 : rs.length = lid.length := hlen
  have hsum2 : (rs.map Int.toNat).sum = obs.length := hsum
  have hsorted2 : List.Pairwise (fun p q => pairLex p q = true)
      ((repeatArange 0 rs).zip obs) := hsorted
  have hc2i : contiguous_to_indexed (Dataset.mk (some rs) none lid obs)
      = .ok (Dataset.mk none (some (repeatArange 0 rs)) lid obs) := rfl
  rw [hc2i]
  show indexed_to_contiguous (Dataset.mk none (some (repeatArange 0 rs)) lid obs)
      = .ok (Dataset.mk (some rs) none lid obs)
  have hguard : (repeatArange 0 rs).all
      (fun v => decide (-(lid.length : Int) ≤ v) && decide (v < (lid.length : Int))) = true := by
    rw [List.all_eq_true]
    intro v hv
    have hb := repeatArange_mem rs 0 v hv
    simp only [Bool.and_eq_true, decide_eq_true_eq]
    omega
  have hsrt : stableSort pairLex ((repeatArange 0 rs).zip obs) = (repeatArange 0 rs).zip obs :=
    stableSort_eq_self pairLex _ hsorted2
  have hlenli : (repeatArange 0 rs).length = obs.length := by
    rw [repeatArange_length]
    exact hsum2
  have hobs : ((repeatArange 0 rs).zip obs).map Prod.snd = obs :=
    List.map_snd_zip _ _ (le_of_eq hlenli.symm)
  have hrow : (List.range lid.length).map
      (fun (i : Nat) => ((((repeatArange 0 rs).zip obs).countP
        (fun p => decide (normIdx lid.length p.1 = (i : Int)))) : Int)) = rs := by
    apply List.ext_get
    · simp [hlen2]
    · intro i h1 h2
      simp only [List.get_eq_getElem, List.getElem_map, List.getElem_range]
      have hi : i < rs.length := h2
      have hz : ((repeatArange 0 rs).zip obs).countP
          (fun p => decide (normIdx lid.length p.1 = (i : Int)))
          = (repeatArange 0 rs).countP (fun v => decide (normIdx lid.length v = (i : Int))) := by
        conv_rhs => rw [show repeatArange 0 rs = ((repeatArange 0 rs).zip obs).map Prod.fst from
          (List.map_fst_zip _ _ (le_of_eq hlenli)).symm]
        rw [List.countP_map]
        rfl
      rw [hz]
      have hnorm : (repeatArange 0 rs).countP (fun v => decide (normIdx lid.length v = (i : Int)))
          = (repeatArange 0 rs).countP (fun v => decide (v = (i : Int))) := by
        apply List.countP_congr
        intro v hv
        have hb := repeatArange_mem rs 0 v hv
        have heq : normIdx lid.length v = v := by
          unfold normIdx
          rw [if_neg (by omega)]
        rw [heq]
      rw [hnorm]
      have hcnt := repeatArange_countP rs 0 i hi
      have hfun : (fun v : Int => decide (v = 0 + (i : Int))) = (fun v : Int => decide (v = (i : Int))) := by
        funext v
        rw [zero_add]
      rw [hfun] at hcnt
      rw [hcnt]
      rw [List.getD_eq_getElem rs 0 hi]
      exact Int.toNat_of_nonneg (hpos _ (List.getElem_mem hi))
  simp only [indexed_to_contiguous, hguard, if_true, hsrt]
  rw [hobs, hrow]

/-- Witness for C1: three locations with row_size [2, 0, 1] (the middle
location has zero observations) and time-sorted groups. -/
theorem c1_round_trip_witness :
    (contiguous_to_indexed (Dataset.mk (some [2, 0, 1]) none [10, 20, 30]
        [Obs.mk 1 5, Obs.mk 2 6, Obs.mk 9 7])).bind indexed_to_contiguous
      = .ok (Dataset.mk (some [2, 0, 1]) none [10, 20, 30]
        [Obs.mk 1 5, Obs.mk 2 6, Obs.mk 9 7]) :=
  c1_round_trip _ [2, 0, 1] rfl rfl (by decide) rfl (by decide) (by decide)
